import Mathlib

/-!
Shallow embedding of the CHIP-8 virtual machine core of this repository
(`src/cpu.rs`, `src/util.rs`) and proofs about it.

Conventions of the embedding:
* Rust machine integers become `Nat`; wrapping 8-bit arithmetic is written
  with an explicit `% 256`; overflow flags become explicit comparisons.
* In-place array mutation becomes functional update (`upd`) on
  `Nat → Nat` stores.
* Fallible operations (the two `return Err(..)` exits of `run_loop`, and
  Rust panics from out-of-bounds array indexing or debug-mode integer
  overflow) are modelled with `Except`; the error value carries the
  machine state at the moment of the early exit, so that "no mutation
  happened before the error" is a provable statement, not a convention.
* External collaborators (window, audio, randomness) are inputs/outputs:
  the per-frame key snapshot, the random byte and the collision byte
  returned by `win.draw` are parameters, and calls to the display/audio
  collaborators are recorded as an event list.
-/

namespace Chip8

/-- Functional update of a `Nat`-indexed store: models the in-place array
write `arr[x] = v` on the embedded state. -/
def upd (f : Nat → Nat) (x v : Nat) : Nat → Nat :=
  fun a => if a = x then v else f a

/-- `util.rs::is_bit_set`: `byte & (1 << n) != 0`. -/
def is_bit_set (byte n : Nat) : Bool :=
  Nat.land byte (Nat.shiftLeft 1 n) != 0

/-- `util.rs::get_bit`: `if is_bit_set(byte, n) { 1 } else { 0 }`. -/
def get_bit (byte n : Nat) : Nat :=
  if is_bit_set byte n then 1 else 0

/-- The arithmetic content of `util.rs::get_hex_digits`:
`(n / 16^o) % 16^d`.  Used by the instruction decoder, whose call sites
all pass constant `d`, `o` ≤ 3, for which the Rust `u16` computation is
exact (no overflow). -/
def hexDigits (n d o : Nat) : Nat :=
  (n / 16 ^ o) % 16 ^ d

/-- `util.rs::get_hex_digits` as written, on a `u16` argument:
`((n / base.pow(o)) % base.pow(d)) as usize` with `base : u16 = 0x10`.
When `16^o` or `16^d` does not fit in `u16` (i.e. `o ≥ 4` or `d ≥ 4`),
`u16::pow` overflows: in a debug build this panics immediately, and in a
release build the power wraps to `0` (since `16^4 = 2^16`) and the
subsequent `/` or `%` by zero panics.  Both outcomes are modelled as
`none`. -/
def get_hex_digits (n d o : Nat) : Option Nat :=
  if 16 ^ o < 65536 ∧ 16 ^ d < 65536 then
    some ((n / 16 ^ o) % 16 ^ d)
  else
    none

/-- The CPU state owned by `cpu.rs::CPU` (minus the window/audio handles,
which are external collaborators).  `ram` and `stack` are total maps, but
every access in the embedded code is bounds-guarded exactly where the
Rust array indexing is. -/
structure CPU where
  ram : Nat → Nat
  v : Nat → Nat
  i : Nat
  dt : Nat
  st : Nat
  stack : Nat → Nat
  sp : Nat
  pc : Nat

/-- The local mutable variables of `CPU::run_loop`, together with the CPU
state they drive. -/
structure Loop where
  cpu : CPU
  executing : Bool
  waiting_for_keypress : Bool
  store_keypress_in : Nat
  time_to_runloop : Nat

/-- The ways an iteration of `run_loop` can abort:
* `stackUnderflow`: the `Err("Stack empty, cannot return from subroutine!")`
  return of the `0x00ee` arm;
* `stackOverflow`: the `Err("Stack full, cannot push!")` return of the
  `0x2000..=0x2fff` arm;
* `crash`: a Rust panic (out-of-bounds array index, or debug-mode
  arithmetic overflow). -/
inductive ExecError where
  | stackUnderflow
  | stackOverflow
  | crash
deriving DecidableEq, Repr

/-- Calls made to the display/audio collaborators, in order:
`win.clear_screen()`, `win.draw(bytes, x, y)`, `audio.play()`,
`audio.pause()`, `win.refresh()`. -/
inductive Ev where
  | clearScreen
  | draw (bytes : List Nat) (x y : Nat)
  | play
  | pause
  | refresh
deriving DecidableEq, Repr

/-- Guarded RAM read `self.ram[a]`: panics (crash) when `a ≥ 4096`. -/
def rRam (l : Loop) (a : Nat) : Except (ExecError × Loop) Nat :=
  if a < 4096 then .ok (l.cpu.ram a) else .error (.crash, l)

/-- Guarded RAM write `self.ram[a] = val`. -/
def wRam (l : Loop) (a val : Nat) : Except (ExecError × Loop) Loop :=
  if a < 4096 then
    .ok { l with cpu := { l.cpu with ram := upd l.cpu.ram a val } }
  else
    .error (.crash, l)

/-- Guarded stack read `self.stack[idx]` (the stack array has 16 slots). -/
def rStack (l : Loop) (idx : Nat) : Except (ExecError × Loop) Nat :=
  if idx < 16 then .ok (l.cpu.stack idx) else .error (.crash, l)

/-- Guarded stack write `self.stack[idx] = val`. -/
def wStack (l : Loop) (idx val : Nat) : Except (ExecError × Loop) Loop :=
  if idx < 16 then
    .ok { l with cpu := { l.cpu with stack := upd l.cpu.stack idx val } }
  else
    .error (.crash, l)

/-- The `for j in 0..=d2 { self.ram[self.i+j] = self.v[j]; }` loop of the
`Fx55` arm, iterating over the (already materialised) index list. -/
def storeRegs (base : Nat) : List Nat → Loop → Except (ExecError × Loop) Loop
  | [], l => .ok l
  | j :: js, l =>
    match wRam l (base + j) (l.cpu.v j) with
    | .error e => .error e
    | .ok l1 => storeRegs base js l1

/-- The `for j in 0..=d2 { self.v[j] = self.ram[self.i+j]; }` loop of the
`Fx65` arm. -/
def loadRegs (base : Nat) : List Nat → Loop → Except (ExecError × Loop) Loop
  | [], l => .ok l
  | j :: js, l =>
    match rRam l (base + j) with
    | .error e => .error e
    | .ok b => loadRegs base js { l with cpu := { l.cpu with v := upd l.cpu.v j b } }

/-- The `while byte_count > 0 { bytes_to_print.push(self.ram[self.i + j]); .. }`
loop of the `Dxyn` arm: read `n` bytes starting at `base`. -/
def readBytes (l : Loop) : Nat → Nat → Except (ExecError × Loop) (List Nat)
  | _, 0 => .ok []
  | base, n + 1 =>
    match rRam l base with
    | .error e => .error e
    | .ok b =>
      match readBytes l (base + 1) n with
      | .error e => .error e
      | .ok bs => .ok (b :: bs)

/-- The inner `match lsb` of the `0x8000..=0x8fff` arm.  All branches are
pure register updates; the unrecognized branch (`_`) only logs.  Note the
source's assignment orders: for `lsb = 4,5,7` the result is written to
`Vx` *before* the flag is written to `VF`; for `lsb = 6, 0xe` the flag is
written to `VF` *before* the result is written to `Vx`. -/
def exec8 (l : Loop) (lsb reg1 reg2 : Nat) : Loop :=
  let c := l.cpu
  if lsb = 0x0 then
    { l with cpu := { c with v := upd c.v reg1 (c.v reg2) } }
  else if lsb = 0x1 then
    { l with cpu := { c with v := upd c.v reg1 (Nat.lor (c.v reg1) (c.v reg2)) } }
  else if lsb = 0x2 then
    { l with cpu := { c with v := upd c.v reg1 (Nat.land (c.v reg1) (c.v reg2)) } }
  else if lsb = 0x3 then
    { l with cpu := { c with v := upd c.v reg1 (Nat.xor (c.v reg1) (c.v reg2)) } }
  else if lsb = 0x4 then
    { l with cpu := { c with v := (upd (upd c.v reg1 ((c.v reg1 + c.v reg2) % 256)) 0xf (if 256 ≤ c.v reg1 + c.v reg2 then 1 else 0)) } }
  else if lsb = 0x5 then
    { l with cpu := { c with v := (upd (upd c.v reg1 ((c.v reg1 + 256 - c.v reg2) % 256)) 0xf (if c.v reg1 < c.v reg2 then 0 else 1)) } }
  else if lsb = 0x6 then
    { l with cpu := { c with v := (upd (upd c.v 0xf (get_bit (c.v reg1) 0)) reg1 (c.v reg1 / 2)) } }
  else if lsb = 0x7 then
    { l with cpu := { c with v := (upd (upd c.v reg1 ((c.v reg2 + 256 - c.v reg1) % 256)) 0xf (if c.v reg2 < c.v reg1 then 0 else 1)) } }
  else if lsb = 0xe then
    { l with cpu := { c with v := (upd (upd c.v 0xf (get_bit (c.v reg1) 7)) reg1 (c.v reg1 * 2 % 256)) } }
  else
    l

/-- The `0xe000..=0xff65` arm of the dispatcher, which inspects the four
nibbles individually.  `keys` is the frame's `keys_pressed` snapshot
(an array of 16 booleans, hence the bounds guard on `keys_pressed[Vx]`).
The `Fx29` arm computes `0x10 * self.v[d2]` in `u8`; in a debug build
this panics when `Vx ≥ 16`, modelled as `crash`. -/
def execEF (keys : Nat → Bool) (l : Loop) (d1 d2 d3 d4 : Nat) :
    Except (ExecError × Loop) (Loop × List Ev) :=
  let c := l.cpu
  if d1 = 0xe ∧ d3 = 0x9 ∧ d4 = 0xe then
    if c.v d2 < 16 then
      .ok (if keys (c.v d2) then { l with cpu := { c with pc := c.pc + 2 } } else l, [])
    else .error (.crash, l)
  else if d1 = 0xe ∧ d3 = 0xa ∧ d4 = 0x1 then
    if c.v d2 < 16 then
      .ok (if keys (c.v d2) then l else { l with cpu := { c with pc := c.pc + 2 } }, [])
    else .error (.crash, l)
  else if d1 = 0xf ∧ d3 = 0x0 ∧ d4 = 0x7 then
    .ok ({ l with cpu := { c with v := upd c.v d2 c.dt } }, [])
  else if d1 = 0xf ∧ d3 = 0x0 ∧ d4 = 0xa then
    .ok ({ l with executing := false, waiting_for_keypress := true, store_keypress_in := d2 }, [])
  else if d1 = 0xf ∧ d3 = 0x1 ∧ d4 = 0x5 then
    .ok ({ l with cpu := { c with dt := c.v d2 } }, [])
  else if d1 = 0xf ∧ d3 = 0x1 ∧ d4 = 0x8 then
    .ok ({ l with cpu := { c with st := c.v d2 } }, [])
  else if d1 = 0xf ∧ d3 = 0x1 ∧ d4 = 0xe then
    .ok ({ l with cpu := { c with i := c.i + c.v d2 } }, [])
  else if d1 = 0xf ∧ d3 = 0x2 ∧ d4 = 0x9 then
    if 16 * c.v d2 < 256 then
      .ok ({ l with cpu := { c with i := 16 * c.v d2 } }, [])
    else .error (.crash, l)
  else if d1 = 0xf ∧ d3 = 0x3 ∧ d4 = 0x3 then
    match wRam l c.i (c.v d2 / 100) with
    | .error e => .error e
    | .ok l1 =>
      match wRam l1 (c.i + 1) (c.v d2 % 100 / 10) with
      | .error e => .error e
      | .ok l2 =>
        match wRam l2 (c.i + 2) (c.v d2 % 10) with
        | .error e => .error e
        | .ok l3 => .ok (l3, [])
  else if d1 = 0xf ∧ d3 = 0x5 ∧ d4 = 0x5 then
    match storeRegs c.i (List.range (d2 + 1)) l with
    | .error e => .error e
    | .ok l1 => .ok (l1, [])
  else if d1 = 0xf ∧ d3 = 0x6 ∧ d4 = 0x5 then
    match loadRegs c.i (List.range (d2 + 1)) l with
    | .error e => .error e
    | .ok l1 => .ok (l1, [])
  else
    .ok (l, [])

/-- One pass through the `match instruction` dispatcher of
`CPU::run_loop`, given the frame's key snapshot, the random byte drawn by
`Cxkk` and the collision byte returned by `win.draw`.  Returns the new
state, the `next_instruction` flag, and the collaborator calls made. -/
def execInstr (keys : Nat → Bool) (rnd drawRes : Nat) (l : Loop) (instr : Nat) :
    Except (ExecError × Loop) (Loop × Bool × List Ev) :=
  let c := l.cpu
  if instr = 0x00e0 then
    .ok (l, true, [.clearScreen])
  else if instr = 0x00ee then
    if c.sp = 0 then .error (.stackUnderflow, l)
    else
      match rStack l (c.sp - 1) with
      | .error e => .error e
      | .ok ret => .ok ({ l with cpu := { c with sp := c.sp - 1, pc := ret } }, true, [])
  else if 0x1000 ≤ instr ∧ instr ≤ 0x1fff then
    .ok ({ l with cpu := { c with pc := hexDigits instr 3 0 } }, false, [])
  else if 0x2000 ≤ instr ∧ instr ≤ 0x2fff then
    if c.sp = 16 then .error (.stackOverflow, l)
    else
      match wStack l c.sp c.pc with
      | .error e => .error e
      | .ok l1 =>
        .ok ({ l1 with cpu := { l1.cpu with sp := c.sp + 1, pc := hexDigits instr 3 0 } }, false, [])
  else if 0x3000 ≤ instr ∧ instr ≤ 0x3fff then
    .ok (if c.v (hexDigits instr 1 2) = hexDigits instr 2 0 then
          { l with cpu := { c with pc := c.pc + 2 } } else l, true, [])
  else if 0x4000 ≤ instr ∧ instr ≤ 0x4fff then
    .ok (if c.v (hexDigits instr 1 2) ≠ hexDigits instr 2 0 then
          { l with cpu := { c with pc := c.pc + 2 } } else l, true, [])
  else if 0x5000 ≤ instr ∧ instr ≤ 0x5fff then
    .ok (if c.v (hexDigits instr 1 2) = c.v (hexDigits instr 1 1) then
          { l with cpu := { c with pc := c.pc + 2 } } else l, true, [])
  else if 0x6000 ≤ instr ∧ instr ≤ 0x6fff then
    .ok ({ l with cpu := { c with v := upd c.v (hexDigits instr 1 2) (hexDigits instr 2 0) } },
         true, [])
  else if 0x7000 ≤ instr ∧ instr ≤ 0x7fff then
    .ok ({ l with cpu := { c with v := (upd c.v (hexDigits instr 1 2) ((c.v (hexDigits instr 1 2) + hexDigits instr 2 0) % 256)) } }, true, [])
  else if 0x8000 ≤ instr ∧ instr ≤ 0x8fff then
    .ok (exec8 l (hexDigits instr 1 0) (hexDigits instr 1 2) (hexDigits instr 1 1), true, [])
  else if 0x9000 ≤ instr ∧ instr ≤ 0x9fff then
    .ok (if c.v (hexDigits instr 1 2) ≠ c.v (hexDigits instr 1 1) then
          { l with cpu := { c with pc := c.pc + 2 } } else l, true, [])
  else if 0xa000 ≤ instr ∧ instr ≤ 0xafff then
    .ok ({ l with cpu := { c with i := hexDigits instr 3 0 } }, true, [])
  else if 0xb000 ≤ instr ∧ instr ≤ 0xbfff then
    .ok ({ l with cpu := { c with pc := hexDigits instr 3 0 + c.v 0 } }, false, [])
  else if 0xc000 ≤ instr ∧ instr ≤ 0xcfff then
    .ok ({ l with cpu := { c with v := (upd c.v (hexDigits instr 1 2) (Nat.land rnd (hexDigits instr 2 0))) } }, true, [])
  else if 0xd000 ≤ instr ∧ instr ≤ 0xdfff then
    match readBytes l c.i (hexDigits instr 1 0) with
    | .error e => .error e
    | .ok bs =>
      .ok ({ l with cpu := { c with v := upd c.v 0xf drawRes } }, true,
           [.draw bs (c.v (hexDigits instr 1 2)) (c.v (hexDigits instr 1 1))])
  else if 0xe000 ≤ instr ∧ instr ≤ 0xff65 then
    match execEF keys l (hexDigits instr 1 3) (hexDigits instr 1 2)
        (hexDigits instr 1 1) (hexDigits instr 1 0) with
    | .error e => .error e
    | .ok (l1, evs) => .ok (l1, true, evs)
  else
    .ok (l, true, [])

/-- The dispatcher followed by the `if next_instruction { self.pc += 2; }`
step that ends the `if executing` block. -/
def runInstr (keys : Nat → Bool) (rnd drawRes : Nat) (l : Loop) (instr : Nat) :
    Except (ExecError × Loop) (Loop × List Ev) :=
  match execInstr keys rnd drawRes l instr with
  | .error e => .error e
  | .ok (l1, next, evs) =>
    .ok (if next then { l1 with cpu := { l1.cpu with pc := l1.cpu.pc + 2 } } else l1, evs)

/-- External inputs consumed by one iteration of `run_loop`:
the key snapshot returned by `handle_key_events` (16 booleans), the
random byte drawn by `Cxkk`, and the collision byte `win.draw` would
return for the `Dxyn` call of this frame. -/
structure Env where
  keys : Nat → Bool
  rnd : Nat
  drawRes : Nat

/-- Ascending scan of the key snapshot starting at index `j` with `n`
entries left, stopping at the first pressed key, as the
`for (j, k) in keys_pressed.iter().enumerate()` loop does. -/
def scanKeys (keys : Nat → Bool) : Nat → Nat → Option Nat
  | _, 0 => none
  | j, n + 1 => if keys j then some j else scanKeys keys (j + 1) n

/-- Index of the first pressed key in the frame snapshot (16 entries,
ascending from 0). -/
def firstKey (keys : Nat → Bool) : Option Nat :=
  scanKeys keys 0 16

/-- The key-handling loop at the top of each `run_loop` iteration.  When
`waiting_for_keypress` is set and some key is down in the snapshot, the
first such key (lowest index) resumes execution and its index is written
into `v[store_keypress_in]` (a Rust array write, hence the bounds guard);
otherwise pressed keys are merely logged. -/
def handleKeys (keys : Nat → Bool) (l : Loop) : Except (ExecError × Loop) Loop :=
  if l.waiting_for_keypress then
    match firstKey keys with
    | none => .ok l
    | some j =>
      if l.store_keypress_in < 16 then
        .ok { l with
              cpu := { l.cpu with v := (upd l.cpu.v l.store_keypress_in j) },
              executing := true, waiting_for_keypress := false }
      else
        .error (.crash, l)
  else
    .ok l

/-- The unconditional instruction fetch:
`(self.ram[self.pc] as u16) * 256 + self.ram[self.pc + 1] as u16`. -/
def fetch (l : Loop) : Except (ExecError × Loop) Nat :=
  match rRam l l.cpu.pc with
  | .error e => .error e
  | .ok b1 =>
    match rRam l (l.cpu.pc + 1) with
    | .error e => .error e
    | .ok b2 => .ok (b1 * 256 + b2)

/-- The `if executing { .. }` block: dispatch the fetched instruction and
apply the conditional PC advance; skipped entirely while suspended. -/
def execPhase (env : Env) (l : Loop) (instr : Nat) :
    Except (ExecError × Loop) (Loop × List Ev) :=
  if l.executing then
    runInstr env.keys env.rnd env.drawRes l instr
  else
    .ok (l, [])

/-- The timer/refresh block at the end of each iteration: when
`time_to_runloop` has reached 0, decrement the nonzero timers, start or
stop the tone, present the framebuffer, and reset the counter to 8;
otherwise just decrement the counter. -/
def timerPhase (l : Loop) : Loop × List Ev :=
  if l.time_to_runloop = 0 then
    let c := l.cpu
    let dt1 := if 0 < c.dt then c.dt - 1 else c.dt
    let st1 := if 0 < c.st then c.st - 1 else c.st
    let evs := (if 0 < c.st then [Ev.play] else [Ev.pause]) ++ [Ev.refresh]
    ({ l with cpu := { c with dt := dt1, st := st1 }, time_to_runloop := 8 }, evs)
  else
    ({ l with time_to_runloop := l.time_to_runloop - 1 }, [])

/-- One full iteration of the `while` body of `run_loop`: handle keys,
fetch, execute at most one instruction, then tick the timer block. -/
def stepBody (env : Env) (l : Loop) : Except (ExecError × Loop) (Loop × List Ev) :=
  match handleKeys env.keys l with
  | .error e => .error e
  | .ok l1 =>
    match fetch l1 with
    | .error e => .error e
    | .ok instr =>
      match execPhase env l1 instr with
      | .error e => .error e
      | .ok (l2, evs) =>
        let (l3, evs2) := timerPhase l2
        .ok (l3, evs ++ evs2)

/-- Up to `n` iterations of `run_loop`'s `while` loop.  The loop guard in
the source is `self.win.is_open() && !self.win.is_key_down(Key::Escape)
&& self.pc <= RAM_SIZE`; the window conditions are external (modelled by
the iteration budget `n`), the program-counter condition `pc ≤ 4096` is
the VM's own.  Returns the final state and the concatenated collaborator
calls. -/
def run (env : Env) : Nat → Loop → Except (ExecError × Loop) (Loop × List Ev)
  | 0, l => .ok (l, [])
  | n + 1, l =>
    if l.cpu.pc ≤ 4096 then
      match stepBody env l with
      | .error e => .error e
      | .ok (l1, evs) =>
        match run env n l1 with
        | .error e => .error e
        | .ok (l2, evs2) => .ok (l2, evs ++ evs2)
    else
      .ok (l, [])

/-- The `RAM_DIGITS` glyph table of `cpu.rs`. -/
def RAM_DIGITS : List (List Nat) :=
  [[0xf0, 0x90, 0x90, 0x90, 0xf0],
   [0x20, 0x60, 0x20, 0x20, 0x70],
   [0xf0, 0x10, 0xf0, 0x80, 0xf0],
   [0xf0, 0x10, 0xf0, 0x10, 0xf0],
   [0x90, 0x90, 0xf0, 0x10, 0x10],
   [0xf0, 0x80, 0xf0, 0x10, 0xf0],
   [0xf0, 0x80, 0xf0, 0x90, 0xf0],
   [0xf0, 0x10, 0x20, 0x40, 0x40],
   [0xf0, 0x90, 0xf0, 0x90, 0xf0],
   [0xf0, 0x90, 0xf0, 0x10, 0xf0],
   [0xf0, 0x90, 0xf0, 0x90, 0x90],
   [0xe0, 0x90, 0xe0, 0x90, 0xe0],
   [0xf0, 0x80, 0x80, 0x80, 0xf0],
   [0xe0, 0x90, 0x90, 0x90, 0xe0],
   [0xf0, 0x80, 0xf0, 0x80, 0xf0],
   [0xf0, 0x80, 0xf0, 0x80, 0x80]]

/-- `CPU::preload_ram`: store glyph `j` at addresses `0x10*j .. 0x10*j+4`. -/
def preloadRam (r : Nat → Nat) : Nat → Nat :=
  RAM_DIGITS.enum.foldl
    (fun r jd => jd.2.enum.foldl (fun r kb => upd r (0x10 * jd.1 + kb.1) kb.2) r) r

/-- `CPU::new`: zeroed state, `pc = 0x200`, glyph table preloaded. -/
def newCPU : CPU :=
  { ram := preloadRam (fun _ => 0), v := fun _ => 0, i := 0, dt := 0, st := 0,
    stack := fun _ => 0, sp := 0, pc := 0x200 }

/-- `CPU::load_rom`: reject the ROM when `0x200 + rom.len() >= 4096`,
otherwise copy it into RAM starting at `0x200`. -/
def load_rom (c : CPU) (rom : List Nat) : Option CPU :=
  if 4096 ≤ 0x200 + rom.length then
    none
  else
    some { c with ram := rom.enum.foldl (fun r jc => upd r (jc.1 + 0x200) jc.2) c.ram }

/-- The local-variable initialisation at the top of `run_loop`:
`executing = true`, `waiting_for_keypress = false`,
`store_keypress_in = 0`, `time_to_runloop = 8`. -/
def initLoop (c : CPU) : Loop :=
  { cpu := c, executing := true, waiting_for_keypress := false,
    store_keypress_in := 0, time_to_runloop := 8 }

/-- A frame environment with no keys down. -/
def quietEnv : Env :=
  { keys := fun _ => false, rnd := 0, drawRes := 0 }

/-- Register `x` of the resulting state of a dispatcher call, when it
succeeded. -/
def resultV (r : Except (ExecError × Loop) (Loop × Bool × List Ev)) (x : Nat) : Option Nat :=
  match r with
  | .ok (l, _, _) => some (l.cpu.v x)
  | .error _ => none

/-- The error kind of a dispatcher call, if it aborted. -/
def errKind (r : Except (ExecError × Loop) (Loop × Bool × List Ev)) : Option ExecError :=
  match r with
  | .ok _ => none
  | .error (e, _) => some e

/-- The state carried by a dispatcher abort (the machine state at the
moment the error exit was taken). -/
def errState (r : Except (ExecError × Loop) (Loop × Bool × List Ev)) : Option Loop :=
  match r with
  | .ok _ => none
  | .error (_, l) => some l

/-- Program counter after `n` loop iterations, when no abort occurred. -/
def runPC (env : Env) (n : Nat) (l : Loop) : Option Nat :=
  match run env n l with
  | .ok (l1, _) => some l1.cpu.pc
  | .error _ => none

/-- Error kind of a bounded run, if it aborted. -/
def runErr (env : Env) (n : Nat) (l : Loop) : Option ExecError :=
  match run env n l with
  | .ok _ => none
  | .error (e, _) => some e

/-- Collaborator calls emitted by a bounded run, when no abort occurred. -/
def runEvs (env : Env) (n : Nat) (l : Loop) : Option (List Ev) :=
  match run env n l with
  | .ok (_, evs) => some evs
  | .error _ => none

/-- Number of `win.refresh()` presentations in an event list. -/
def countRefresh (evs : List Ev) : Nat :=
  evs.countP (fun e => e = Ev.refresh)

/-- PC after a single dispatched instruction (including the automatic
advance), when it succeeded. -/
def instrPC (r : Except (ExecError × Loop) (Loop × List Ev)) : Option Nat :=
  match r with
  | .ok (l, _) => some l.cpu.pc
  | .error _ => none

/-- Number of `audio.play()`/`audio.pause()` commands in an event list. -/
def countAudio (evs : List Ev) : Nat :=
  evs.countP (fun e => e = Ev.play ∨ e = Ev.pause)

/-- The machine after loading the two-byte ROM `1F FE` (jump to `0xFFE`). -/
def oobCPU : CPU :=
  (load_rom newCPU [0x1f, 0xfe]).getD newCPU

/-- A fresh run-loop state over a CPU whose program area reads as zero
bytes (the word `0000` is dispatched to the unrecognized branch), used to
trace the tick cadence concretely. -/
def zeroLoop : Loop :=
  { cpu := { ram := fun _ => 0, v := fun _ => 0, i := 0, dt := 0, st := 0, stack := fun _ => 0, sp := 0, pc := 0x200 }, executing := true, waiting_for_keypress := false, store_keypress_in := 0, time_to_runloop := 8 }

/-- The instruction words routed to a `println!("Warning: unrecognized
instruction: ..")` branch of the dispatcher: the top-level `_` arm
(words `0x0000..0x0fff` other than `00E0`/`00EE`, and words above
`0xff65`), the `_` arm of the inner `match lsb` of the `8xyz` family,
and the final `else` of the `0xe000..=0xff65` nibble chain.  (Note the
dispatcher accepts *any* `5xyz`/`9xyz` as the register-compare skips and
any `Dxyn` as draw, so such words are not unrecognized here.) -/
def Unrecognized (instr : Nat) : Prop :=
  (instr ≤ 0x0fff ∧ instr ≠ 0x00e0 ∧ instr ≠ 0x00ee) ∨
  (0x8000 ≤ instr ∧ instr ≤ 0x8fff ∧ instr % 16 ≠ 0x0 ∧ instr % 16 ≠ 0x1 ∧
    instr % 16 ≠ 0x2 ∧ instr % 16 ≠ 0x3 ∧ instr % 16 ≠ 0x4 ∧ instr % 16 ≠ 0x5 ∧
    instr % 16 ≠ 0x6 ∧ instr % 16 ≠ 0x7 ∧ instr % 16 ≠ 0xe) ∨
  (0xe000 ≤ instr ∧ instr ≤ 0xff65 ∧
    ¬(instr / 4096 % 16 = 0xe ∧ instr / 16 % 16 = 0x9 ∧ instr % 16 = 0xe) ∧
    ¬(instr / 4096 % 16 = 0xe ∧ instr / 16 % 16 = 0xa ∧ instr % 16 = 0x1) ∧
    ¬(instr / 4096 % 16 = 0xf ∧ instr / 16 % 16 = 0x0 ∧ instr % 16 = 0x7) ∧
    ¬(instr / 4096 % 16 = 0xf ∧ instr / 16 % 16 = 0x0 ∧ instr % 16 = 0xa) ∧
    ¬(instr / 4096 % 16 = 0xf ∧ instr / 16 % 16 = 0x1 ∧ instr % 16 = 0x5) ∧
    ¬(instr / 4096 % 16 = 0xf ∧ instr / 16 % 16 = 0x1 ∧ instr % 16 = 0x8) ∧
    ¬(instr / 4096 % 16 = 0xf ∧ instr / 16 % 16 = 0x1 ∧ instr % 16 = 0xe) ∧
    ¬(instr / 4096 % 16 = 0xf ∧ instr / 16 % 16 = 0x2 ∧ instr % 16 = 0x9) ∧
    ¬(instr / 4096 % 16 = 0xf ∧ instr / 16 % 16 = 0x3 ∧ instr % 16 = 0x3) ∧
    ¬(instr / 4096 % 16 = 0xf ∧ instr / 16 % 16 = 0x5 ∧ instr % 16 = 0x5) ∧
    ¬(instr / 4096 % 16 = 0xf ∧ instr / 16 % 16 = 0x6 ∧ instr % 16 = 0x5)) ∨
  (0xff65 < instr ∧ instr ≤ 0xffff)

/-- A machine suspended in `WaitingForKey(7)`. -/
def waitLoop : Loop :=
  { cpu := newCPU, executing := false, waiting_for_keypress := true, store_keypress_in := 7, time_to_runloop := 8 }

/-- A frame environment in which exactly key 3 is down. -/
def keyEnv : Env :=
  { keys := fun k => k == 3, rnd := 0, drawRes := 0 }

/-- The state after one quiet iteration from `zeroLoop`: the word `0000`
is skipped (PC advances by 2) and the tick counter goes from 8 to 7. -/
def zeroLoopStep : Loop :=
  { zeroLoop with cpu := { zeroLoop.cpu with pc := 0x202 }, time_to_runloop := 7 }

/-! ## Decoder lemmas -/

theorem hexDigits_1_0 (n : Nat) : hexDigits n 1 0 = n % 16 := by
  unfold hexDigits; norm_num

theorem hexDigits_1_1 (n : Nat) : hexDigits n 1 1 = n / 16 % 16 := by
  unfold hexDigits; norm_num

theorem hexDigits_1_2 (n : Nat) : hexDigits n 1 2 = n / 256 % 16 := by
  unfold hexDigits; norm_num

theorem hexDigits_1_3 (n : Nat) : hexDigits n 1 3 = n / 4096 % 16 := by
  unfold hexDigits; norm_num

theorem hexDigits_2_0 (n : Nat) : hexDigits n 2 0 = n % 256 := by
  unfold hexDigits; norm_num

theorem hexDigits_3_0 (n : Nat) : hexDigits n 3 0 = n % 4096 := by
  unfold hexDigits; norm_num

/-- C7 (amended): on arguments where the `u16` powers do not overflow
(`d ≤ 3`, `o ≤ 3`), `get_hex_digits` returns exactly
`(n / 16^o) mod 16^d`. -/
theorem get_hex_digits_correct (n d o : Nat) (hn : n < 65536) (hd : d ≤ 3) (ho : o ≤ 3) :
    get_hex_digits n d o = some ((n / 16 ^ o) % 16 ^ d) := by
  have h1 : (16 : Nat) ^ o < 65536 := by
    calc (16 : Nat) ^ o ≤ 16 ^ 3 := Nat.pow_le_pow_right (by norm_num) ho
    _ < 65536 := by norm_num
  have h2 : (16 : Nat) ^ d < 65536 := by
    calc (16 : Nat) ^ d ≤ 16 ^ 3 := Nat.pow_le_pow_right (by norm_num) hd
    _ < 65536 := by norm_num
  unfold get_hex_digits
  rw [if_pos ⟨h1, h2⟩]

/-- Witness for C7: extracting 3 digits after skipping 1 from `0x1e90`
yields `0xe9`-`0x1e9`. -/
theorem get_hex_digits_correct_witness :
    get_hex_digits 0x1e90 3 1 = some ((0x1e90 / 16 ^ 1) % 16 ^ 3) :=
  get_hex_digits_correct 0x1e90 3 1 (by norm_num) (by norm_num) (by norm_num)

/-- Counterexample for C7 as stated: with a digit count of 4 (or an
offset of 4) the `u16` power overflows and the function panics instead
of returning `(n / 16^o) mod 16^d`. -/
theorem get_hex_digits_cex :
    get_hex_digits 0 4 0 ≠ some ((0 / 16 ^ 0) % 16 ^ 4) ∧
    get_hex_digits 0 1 4 ≠ some ((0 / 16 ^ 4) % 16 ^ 1) := by
  constructor <;> decide

/-! ## Dispatch lemmas -/

/-- Instruction words `8xyz` reach the `0x8000..=0x8fff` arm, which
decodes `z` as the operation selector and `x`, `y` as the registers. -/
theorem execInstr_8 (k : Nat → Bool) (r dr : Nat) (l : Loop) (x y z : Nat)
    (hx : x < 16) (hy : y < 16) (hz : z < 16) :
    execInstr k r dr l (0x8000 + 256 * x + 16 * y + z) =
      .ok (exec8 l z x y, true, []) := by
  have ez : hexDigits (0x8000 + 256 * x + 16 * y + z) 1 0 = z := by
    rw [hexDigits_1_0]; omega
  have ex : hexDigits (0x8000 + 256 * x + 16 * y + z) 1 2 = x := by
    rw [hexDigits_1_2]; omega
  have ey : hexDigits (0x8000 + 256 * x + 16 * y + z) 1 1 = y := by
    rw [hexDigits_1_1]; omega
  simp only [execInstr]
  iterate 9 rw [if_neg (by omega)]
  rw [if_pos (by omega : 0x8000 ≤ 0x8000 + 256 * x + 16 * y + z ∧
        0x8000 + 256 * x + 16 * y + z ≤ 0x8fff), ez, ex, ey]

set_option maxRecDepth 4096 in
/-- For a byte value, `get_bit b 0` is the low bit `b % 2`. -/
theorem get_bit_zero (b : Nat) (hb : b < 256) : get_bit b 0 = b % 2 := by
  revert b
  have h : ∀ b < 256, get_bit b 0 = b % 2 := by decide
  exact fun b hb => h b hb

set_option maxRecDepth 4096 in
/-- For a byte value, `get_bit b 7` is the high bit `b / 128`. -/
theorem get_bit_seven (b : Nat) (hb : b < 256) : get_bit b 7 = b / 128 := by
  revert b
  have h : ∀ b < 256, get_bit b 7 = b / 128 := by decide
  exact fun b hb => h b hb

/-- Evaluation of the `lsb = 4` branch of the inner match. -/
theorem exec8_4 (l : Loop) (r1 r2 : Nat) :
    exec8 l 4 r1 r2 = { l with cpu := { l.cpu with v :=
      (upd (upd l.cpu.v r1 ((l.cpu.v r1 + l.cpu.v r2) % 256)) 0xf
        (if 256 ≤ l.cpu.v r1 + l.cpu.v r2 then 1 else 0)) } } := rfl

/-- Evaluation of the `lsb = 6` branch of the inner match. -/
theorem exec8_6 (l : Loop) (r1 r2 : Nat) :
    exec8 l 6 r1 r2 = { l with cpu := { l.cpu with v :=
      (upd (upd l.cpu.v 0xf (get_bit (l.cpu.v r1) 0)) r1 (l.cpu.v r1 / 2)) } } := rfl

/-- Evaluation of the `lsb = 0xe` branch of the inner match. -/
theorem exec8_e (l : Loop) (r1 r2 : Nat) :
    exec8 l 0xe r1 r2 = { l with cpu := { l.cpu with v :=
      (upd (upd l.cpu.v 0xf (get_bit (l.cpu.v r1) 7)) r1 (l.cpu.v r1 * 2 % 256)) } } := rfl

/-! ## C1: 8xy4 add with carry -/

/-- C1 (amended): for register indices `x`, `y` and 8-bit register
contents, `8xy4` sets `VF` to 1 iff the unsigned sum of the old `Vx` and
old `Vy` exceeds 255 (else 0); and *when `x ≠ 0xF`*, `Vx` ends holding
the sum modulo 256.  (When `x = 0xF` the flag write, which happens after
the sum write, overwrites the sum.) -/
theorem add_8xy4 (k : Nat → Bool) (r dr : Nat) (l : Loop) (x y : Nat)
    (hx : x < 16) (hy : y < 16)
    (hvx : l.cpu.v x < 256) (hvy : l.cpu.v y < 256) :
    ∃ l1, execInstr k r dr l (0x8000 + 256 * x + 16 * y + 4) = .ok (l1, true, []) ∧
      l1.cpu.v 0xf = (if 255 < l.cpu.v x + l.cpu.v y then 1 else 0) ∧
      (x ≠ 0xf → l1.cpu.v x = (l.cpu.v x + l.cpu.v y) % 256) := by
  refine ⟨exec8 l 4 x y, execInstr_8 k r dr l x y 4 hx hy (by norm_num), ?_, ?_⟩
  · rw [exec8_4]
    simp [upd]
    by_cases h : 256 ≤ l.cpu.v x + l.cpu.v y
    · rw [if_pos h, if_pos (by omega)]
    · rw [if_neg h, if_neg (by omega)]
  · intro hne
    rw [exec8_4]
    simp [upd, hne]

/-- Witness for C1: `V1 = 250`, `V2 = 10`, instruction `8124`. -/
theorem add_8xy4_witness :
    ∃ l1, execInstr (fun _ => false) 0 0
        (initLoop { newCPU with v := upd (upd (fun _ => 0) 1 250) 2 10 })
        (0x8000 + 256 * 1 + 16 * 2 + 4) = .ok (l1, true, []) ∧
      l1.cpu.v 0xf =
        (if 255 < (initLoop { newCPU with v := upd (upd (fun _ => 0) 1 250) 2 10 }).cpu.v 1 +
            (initLoop { newCPU with v := upd (upd (fun _ => 0) 1 250) 2 10 }).cpu.v 2
         then 1 else 0) ∧
      (1 ≠ 0xf → l1.cpu.v 1 =
        ((initLoop { newCPU with v := upd (upd (fun _ => 0) 1 250) 2 10 }).cpu.v 1 +
         (initLoop { newCPU with v := upd (upd (fun _ => 0) 1 250) 2 10 }).cpu.v 2) % 256) :=
  add_8xy4 (fun _ => false) 0 0
    (initLoop { newCPU with v := upd (upd (fun _ => 0) 1 250) 2 10 }) 1 2
    (by norm_num) (by norm_num) (by decide) (by decide)

/-- Counterexample for C1 as stated: with `x = 0xF`, `y = 0`, `VF = 0`,
`V0 = 1`, instruction `8F04` leaves `VF = 0` (the carry flag), not the
claimed wrapped sum `1`. -/
theorem add_8xy4_cex :
    resultV (execInstr (fun _ => false) 0 0
        (initLoop { newCPU with v := upd (fun _ => 0) 0 1 }) 0x8f04) 0xf ≠
      some (((initLoop { newCPU with v := upd (fun _ => 0) 0 1 }).cpu.v 0xf +
             (initLoop { newCPU with v := upd (fun _ => 0) 0 1 }).cpu.v 0) % 256) := by
  decide

/-! ## C4: 8xy6 / 8xyE shifts -/

/-- C4 (amended): `8xy6` sets `Vx` to the old `Vx` shifted right by 1 and,
*when `x ≠ 0xF`*, sets `VF` to the low bit of the old `Vx`; `8xyE` sets
`Vx` to the old `Vx` shifted left by 1 modulo 256 and, when `x ≠ 0xF`,
sets `VF` to the high bit of the old `Vx`.  The flag is captured before
`Vx` is overwritten; when `x = 0xF` the `Vx` write lands on `VF` itself
and overwrites the captured bit with the shifted value. -/
theorem shift_8xy6_8xyE (k : Nat → Bool) (r dr : Nat) (l : Loop) (x y : Nat)
    (hx : x < 16) (hy : y < 16) (hvx : l.cpu.v x < 256) :
    (∃ l1, execInstr k r dr l (0x8000 + 256 * x + 16 * y + 6) = .ok (l1, true, []) ∧
      l1.cpu.v x = l.cpu.v x / 2 ∧
      (x ≠ 0xf → l1.cpu.v 0xf = l.cpu.v x % 2)) ∧
    (∃ l2, execInstr k r dr l (0x8000 + 256 * x + 16 * y + 0xe) = .ok (l2, true, []) ∧
      l2.cpu.v x = l.cpu.v x * 2 % 256 ∧
      (x ≠ 0xf → l2.cpu.v 0xf = l.cpu.v x / 128)) := by
  have hne15 : ∀ x : Nat, x ≠ 15 → (15 : Nat) ≠ x := fun _ h => fun he => h he.symm
  constructor
  · refine ⟨exec8 l 6 x y, execInstr_8 k r dr l x y 6 hx hy (by norm_num), ?_, ?_⟩
    · rw [exec8_6]
      simp [upd]
    · intro hne
      rw [exec8_6]
      simp [upd, hne15 x hne]
      exact get_bit_zero (l.cpu.v x) hvx
  · refine ⟨exec8 l 0xe x y, execInstr_8 k r dr l x y 0xe hx hy (by norm_num), ?_, ?_⟩
    · rw [exec8_e]
      simp [upd]
    · intro hne
      rw [exec8_e]
      simp [upd, hne15 x hne]
      exact get_bit_seven (l.cpu.v x) hvx

/-- Witness for C4: `V3 = 0xAB`, instructions `8306` and `830E`. -/
theorem shift_8xy6_8xyE_witness :
    (∃ l1, execInstr (fun _ => false) 0 0
        (initLoop { newCPU with v := upd (fun _ => 0) 3 0xab })
        (0x8000 + 256 * 3 + 16 * 0 + 6) = .ok (l1, true, []) ∧
      l1.cpu.v 3 = (initLoop { newCPU with v := upd (fun _ => 0) 3 0xab }).cpu.v 3 / 2 ∧
      (3 ≠ 0xf → l1.cpu.v 0xf =
        (initLoop { newCPU with v := upd (fun _ => 0) 3 0xab }).cpu.v 3 % 2)) ∧
    (∃ l2, execInstr (fun _ => false) 0 0
        (initLoop { newCPU with v := upd (fun _ => 0) 3 0xab })
        (0x8000 + 256 * 3 + 16 * 0 + 0xe) = .ok (l2, true, []) ∧
      l2.cpu.v 3 = (initLoop { newCPU with v := upd (fun _ => 0) 3 0xab }).cpu.v 3 * 2 % 256 ∧
      (3 ≠ 0xf → l2.cpu.v 0xf =
        (initLoop { newCPU with v := upd (fun _ => 0) 3 0xab }).cpu.v 3 / 128)) :=
  shift_8xy6_8xyE (fun _ => false) 0 0
    (initLoop { newCPU with v := upd (fun _ => 0) 3 0xab }) 3 0
    (by norm_num) (by norm_num) (by decide)

/-- Counterexample for C4 as stated: with `x = 0xF` and `VF = 2`,
instruction `8F06` leaves `VF = 1` (the shifted value), not the claimed
captured low bit `0`; with `VF = 1`, instruction `8F0E` leaves `VF = 2`,
not the claimed captured high bit `0`. -/
theorem shift_8xy6_8xyE_cex :
    resultV (execInstr (fun _ => false) 0 0
        (initLoop { newCPU with v := upd (fun _ => 0) 0xf 2 }) 0x8f06) 0xf ≠
      some ((initLoop { newCPU with v := upd (fun _ => 0) 0xf 2 }).cpu.v 0xf % 2) ∧
    resultV (execInstr (fun _ => false) 0 0
        (initLoop { newCPU with v := upd (fun _ => 0) 0xf 1 }) 0x8f0e) 0xf ≠
      some ((initLoop { newCPU with v := upd (fun _ => 0) 0xf 1 }).cpu.v 0xf / 128) := by
  constructor <;> decide

/-! ## C2, C3: call stack -/

/-- Evaluation of the `0x00ee` (return) arm. -/
theorem execInstr_ret (k : Nat → Bool) (r dr : Nat) (l : Loop) :
    execInstr k r dr l 0x00ee =
      (if l.cpu.sp = 0 then .error (.stackUnderflow, l)
       else
        match rStack l (l.cpu.sp - 1) with
        | .error e => .error e
        | .ok ret =>
          .ok ({ l with cpu := { l.cpu with sp := l.cpu.sp - 1, pc := ret } }, true, [])) :=
  rfl

/-- Instruction words `2xyz` reach the call arm, with `xyz` decoded as
the target address. -/
theorem execInstr_call (k : Nat → Bool) (r dr : Nat) (l : Loop) (xyz : Nat)
    (h : xyz < 4096) :
    execInstr k r dr l (0x2000 + xyz) =
      (if l.cpu.sp = 16 then .error (.stackOverflow, l)
       else
        match wStack l l.cpu.sp l.cpu.pc with
        | .error e => .error e
        | .ok l1 =>
          .ok ({ l1 with cpu := { l1.cpu with sp := l.cpu.sp + 1, pc := xyz } }, false, [])) := by
  have e3 : hexDigits (0x2000 + xyz) 3 0 = xyz := by rw [hexDigits_3_0]; omega
  simp only [execInstr]
  iterate 3 rw [if_neg (by omega)]
  rw [if_pos (by omega : 0x2000 ≤ 0x2000 + xyz ∧ 0x2000 + xyz ≤ 0x2fff), e3]

/-- C2: `00EE` aborts with `stackUnderflow` iff the call stack is empty,
`2xyz` aborts with `stackOverflow` iff the stack already holds 16 return
addresses, the two error kinds are distinct, and in both error cases the
state carried out of the early `Err` return is exactly the input state —
nothing was mutated before the check. -/
theorem stack_error_conditions (k : Nat → Bool) (r dr : Nat) (l : Loop) (xyz : Nat)
    (hxyz : xyz < 4096) :
    (errKind (execInstr k r dr l 0x00ee) = some .stackUnderflow ↔ l.cpu.sp = 0) ∧
    (errKind (execInstr k r dr l (0x2000 + xyz)) = some .stackOverflow ↔ l.cpu.sp = 16) ∧
    ExecError.stackUnderflow ≠ ExecError.stackOverflow ∧
    (l.cpu.sp = 0 → errState (execInstr k r dr l 0x00ee) = some l) ∧
    (l.cpu.sp = 16 → errState (execInstr k r dr l (0x2000 + xyz)) = some l) := by
  refine ⟨?_, ?_, by decide, ?_, ?_⟩
  · rw [execInstr_ret]
    by_cases hsp : l.cpu.sp = 0
    · simp [hsp, errKind]
    · rw [if_neg hsp]
      by_cases h16 : l.cpu.sp - 1 < 16
      · simp [rStack, h16, errKind, hsp]
      · simp [rStack, h16, errKind, hsp]
  · rw [execInstr_call k r dr l xyz hxyz]
    by_cases hsp : l.cpu.sp = 16
    · simp [hsp, errKind]
    · rw [if_neg hsp]
      by_cases h16 : l.cpu.sp < 16
      · simp [wStack, h16, errKind, hsp]
      · simp [wStack, h16, errKind, hsp]
  · intro hsp
    rw [execInstr_ret, if_pos hsp]
    rfl
  · intro hsp
    rw [execInstr_call k r dr l xyz hxyz, if_pos hsp]
    rfl

/-- Witness for C2: the initial machine (empty stack) and call target 0. -/
theorem stack_error_conditions_witness :
    (errKind (execInstr (fun _ => false) 0 0 (initLoop newCPU) 0x00ee) =
      some .stackUnderflow ↔ (initLoop newCPU).cpu.sp = 0) ∧
    (errKind (execInstr (fun _ => false) 0 0 (initLoop newCPU) (0x2000 + 0)) =
      some .stackOverflow ↔ (initLoop newCPU).cpu.sp = 16) ∧
    ExecError.stackUnderflow ≠ ExecError.stackOverflow ∧
    ((initLoop newCPU).cpu.sp = 0 →
      errState (execInstr (fun _ => false) 0 0 (initLoop newCPU) 0x00ee) =
        some (initLoop newCPU)) ∧
    ((initLoop newCPU).cpu.sp = 16 →
      errState (execInstr (fun _ => false) 0 0 (initLoop newCPU) (0x2000 + 0)) =
        some (initLoop newCPU)) :=
  stack_error_conditions (fun _ => false) 0 0 (initLoop newCPU) 0 (by norm_num)

/-- C3: from any state whose stack holds fewer than 16 entries, executing
`2xyz` and then `00EE` leaves the program counter at the call site plus 2
(the instruction after the call) and restores the stack depth. -/
theorem call_ret_roundtrip (k : Nat → Bool) (r dr : Nat) (l : Loop) (xyz : Nat)
    (hxyz : xyz < 4096) (hsp : l.cpu.sp < 16) :
    ∃ l1 l2,
      runInstr k r dr l (0x2000 + xyz) = .ok (l1, []) ∧ l1.cpu.pc = xyz ∧
      runInstr k r dr l1 0x00ee = .ok (l2, []) ∧
      l2.cpu.pc = l.cpu.pc + 2 ∧ l2.cpu.sp = l.cpu.sp := by
  refine ⟨{ l with cpu := { l.cpu with stack := (upd l.cpu.stack l.cpu.sp l.cpu.pc), sp := l.cpu.sp + 1, pc := xyz } }, { l with cpu := { l.cpu with stack := (upd l.cpu.stack l.cpu.sp l.cpu.pc), sp := l.cpu.sp + 1 - 1, pc := l.cpu.pc + 2 } }, ?_, rfl, ?_, rfl, by simp⟩
  · unfold runInstr
    rw [execInstr_call k r dr l xyz hxyz, if_neg (by omega)]
    simp [wStack, hsp]
  · unfold runInstr
    rw [execInstr_ret]
    rw [if_neg (by simp)]
    simp [rStack, upd, hsp]

/-- Witness for C3: call to `0x300` from the initial machine. -/
theorem call_ret_roundtrip_witness :
    ∃ l1 l2,
      runInstr (fun _ => false) 0 0 (initLoop newCPU) (0x2000 + 0x300) = .ok (l1, []) ∧
      l1.cpu.pc = 0x300 ∧
      runInstr (fun _ => false) 0 0 l1 0x00ee = .ok (l2, []) ∧
      l2.cpu.pc = (initLoop newCPU).cpu.pc + 2 ∧ l2.cpu.sp = (initLoop newCPU).cpu.sp :=
  call_ret_roundtrip (fun _ => false) 0 0 (initLoop newCPU) 0x300 (by norm_num) (by decide)

/-! ## Frame lemmas: what each phase leaves untouched -/

/-- A successful `Fx55` store loop changes only RAM. -/
theorem storeRegs_frame (base : Nat) (js : List Nat) (l l1 : Loop)
    (h : storeRegs base js l = .ok l1) :
    l1.cpu.v = l.cpu.v ∧ l1.cpu.i = l.cpu.i ∧ l1.cpu.pc = l.cpu.pc ∧
    l1.cpu.sp = l.cpu.sp ∧ l1.cpu.stack = l.cpu.stack ∧ l1.cpu.dt = l.cpu.dt ∧
    l1.cpu.st = l.cpu.st ∧ l1.executing = l.executing ∧
    l1.waiting_for_keypress = l.waiting_for_keypress ∧
    l1.store_keypress_in = l.store_keypress_in ∧
    l1.time_to_runloop = l.time_to_runloop := by
  induction js generalizing l with
  | nil =>
    simp only [storeRegs, Except.ok.injEq] at h
    subst h
    repeat' constructor
  | cons j js ih =>
    simp only [storeRegs] at h
    split at h
    · exact Except.noConfusion h
    · rename_i la heq
      have hf := ih _ h
      simp only [wRam] at heq
      split_ifs at heq
      simp only [Except.ok.injEq] at heq
      subst heq
      exact hf

/-- A successful `Fx65` load loop changes only the registers. -/
theorem loadRegs_frame (base : Nat) (js : List Nat) (l l1 : Loop)
    (h : loadRegs base js l = .ok l1) :
    l1.cpu.ram = l.cpu.ram ∧ l1.cpu.i = l.cpu.i ∧ l1.cpu.pc = l.cpu.pc ∧
    l1.cpu.sp = l.cpu.sp ∧ l1.cpu.stack = l.cpu.stack ∧ l1.cpu.dt = l.cpu.dt ∧
    l1.cpu.st = l.cpu.st ∧ l1.executing = l.executing ∧
    l1.waiting_for_keypress = l.waiting_for_keypress ∧
    l1.store_keypress_in = l.store_keypress_in ∧
    l1.time_to_runloop = l.time_to_runloop := by
  induction js generalizing l with
  | nil =>
    simp only [loadRegs, Except.ok.injEq] at h
    subst h
    repeat' constructor
  | cons j js ih =>
    simp only [loadRegs] at h
    split at h
    · exact Except.noConfusion h
    · rename_i b heq
      have hf := ih _ h
      simp only [rRam] at heq
      split_ifs at heq
      exact hf

set_option maxHeartbeats 1000000 in
/-- `exec8` never touches the loop-local timer counter. -/
theorem exec8_ttr (l : Loop) (a b c : Nat) :
    (exec8 l a b c).time_to_runloop = l.time_to_runloop := by
  unfold exec8
  split_ifs <;> rfl

/-- A RAM write leaves every loop field except the RAM untouched. -/
theorem wRam_ttr (l : Loop) (a v : Nat) (l1 : Loop) (h : wRam l a v = .ok l1) :
    l1.time_to_runloop = l.time_to_runloop := by
  simp only [wRam] at h
  split_ifs at h
  simp only [Except.ok.injEq] at h
  subst h
  rfl

/-- A stack write leaves every loop field except the stack untouched. -/
theorem wStack_ttr (l : Loop) (idx v : Nat) (l1 : Loop) (h : wStack l idx v = .ok l1) :
    l1.time_to_runloop = l.time_to_runloop := by
  simp only [wStack] at h
  split_ifs at h
  simp only [Except.ok.injEq] at h
  subst h
  rfl

set_option maxHeartbeats 2000000 in
/-- A successful pass through the `0xe000..=0xff65` arm leaves the timer
counter untouched and emits no collaborator calls. -/
theorem execEF_frame (keys : Nat → Bool) (l : Loop) (d1 d2 d3 d4 : Nat)
    (l1 : Loop) (evs : List Ev) (h : execEF keys l d1 d2 d3 d4 = .ok (l1, evs)) :
    l1.time_to_runloop = l.time_to_runloop ∧ evs = [] := by
  simp only [execEF] at h
  by_cases c1 : d1 = 0xe ∧ d3 = 0x9 ∧ d4 = 0xe
  · rw [if_pos c1] at h
    by_cases g : l.cpu.v d2 < 16
    · rw [if_pos g] at h
      injection h with h'
      injection h' with ha hb
      subst ha
      subst hb
      refine ⟨?_, rfl⟩
      split <;> rfl
    · rw [if_neg g] at h
      exact Except.noConfusion h
  · rw [if_neg c1] at h
    by_cases c2 : d1 = 0xe ∧ d3 = 0xa ∧ d4 = 0x1
    · rw [if_pos c2] at h
      by_cases g : l.cpu.v d2 < 16
      · rw [if_pos g] at h
        injection h with h'
        injection h' with ha hb
        subst ha
        subst hb
        refine ⟨?_, rfl⟩
        split <;> rfl
      · rw [if_neg g] at h
        exact Except.noConfusion h
    · rw [if_neg c2] at h
      by_cases c3 : d1 = 0xf ∧ d3 = 0x0 ∧ d4 = 0x7
      · rw [if_pos c3] at h
        injection h with h'
        injection h' with ha hb
        subst ha
        subst hb
        exact ⟨rfl, rfl⟩
      · rw [if_neg c3] at h
        by_cases c4 : d1 = 0xf ∧ d3 = 0x0 ∧ d4 = 0xa
        · rw [if_pos c4] at h
          injection h with h'
          injection h' with ha hb
          subst ha
          subst hb
          exact ⟨rfl, rfl⟩
        · rw [if_neg c4] at h
          by_cases c5 : d1 = 0xf ∧ d3 = 0x1 ∧ d4 = 0x5
          · rw [if_pos c5] at h
            injection h with h'
            injection h' with ha hb
            subst ha
            subst hb
            exact ⟨rfl, rfl⟩
          · rw [if_neg c5] at h
            by_cases c6 : d1 = 0xf ∧ d3 = 0x1 ∧ d4 = 0x8
            · rw [if_pos c6] at h
              injection h with h'
              injection h' with ha hb
              subst ha
              subst hb
              exact ⟨rfl, rfl⟩
            · rw [if_neg c6] at h
              by_cases c7 : d1 = 0xf ∧ d3 = 0x1 ∧ d4 = 0xe
              · rw [if_pos c7] at h
                injection h with h'
                injection h' with ha hb
                subst ha
                subst hb
                exact ⟨rfl, rfl⟩
              · rw [if_neg c7] at h
                by_cases c8 : d1 = 0xf ∧ d3 = 0x2 ∧ d4 = 0x9
                · rw [if_pos c8] at h
                  by_cases g : 16 * l.cpu.v d2 < 256
                  · rw [if_pos g] at h
                    injection h with h'
                    injection h' with ha hb
                    subst ha
                    subst hb
                    exact ⟨rfl, rfl⟩
                  · rw [if_neg g] at h
                    exact Except.noConfusion h
                · rw [if_neg c8] at h
                  by_cases c9 : d1 = 0xf ∧ d3 = 0x3 ∧ d4 = 0x3
                  · rw [if_pos c9] at h
                    split at h
                    · exact Except.noConfusion h
                    · rename_i la heq1
                      split at h
                      · exact Except.noConfusion h
                      · rename_i lb heq2
                        split at h
                        · exact Except.noConfusion h
                        · rename_i lc heq3
                          injection h with h'
                          injection h' with ha hb
                          subst ha
                          subst hb
                          refine ⟨?_, rfl⟩
                          rw [wRam_ttr _ _ _ _ heq3, wRam_ttr _ _ _ _ heq2, wRam_ttr _ _ _ _ heq1]
                  · rw [if_neg c9] at h
                    by_cases c10 : d1 = 0xf ∧ d3 = 0x5 ∧ d4 = 0x5
                    · rw [if_pos c10] at h
                      split at h
                      · exact Except.noConfusion h
                      · rename_i la heq
                        injection h with h'
                        injection h' with ha hb
                        subst ha
                        subst hb
                        exact ⟨(storeRegs_frame _ _ _ _ heq).2.2.2.2.2.2.2.2.2.2, rfl⟩
                    · rw [if_neg c10] at h
                      by_cases c11 : d1 = 0xf ∧ d3 = 0x6 ∧ d4 = 0x5
                      · rw [if_pos c11] at h
                        split at h
                        · exact Except.noConfusion h
                        · rename_i la heq
                          injection h with h'
                          injection h' with ha hb
                          subst ha
                          subst hb
                          exact ⟨(loadRegs_frame _ _ _ _ heq).2.2.2.2.2.2.2.2.2.2, rfl⟩
                      · rw [if_neg c11] at h
                        injection h with h'
                        injection h' with ha hb
                        subst ha
                        subst hb
                        exact ⟨rfl, rfl⟩

set_option maxHeartbeats 2000000 in
/-- A successful pass through the instruction dispatcher leaves the
timer counter untouched and emits neither `win.refresh()` nor any
audio command — instructions may only clear or draw. -/
theorem execInstr_frame (k : Nat → Bool) (r dr : Nat) (l : Loop) (instr : Nat)
    (l1 : Loop) (next : Bool) (evs : List Ev)
    (h : execInstr k r dr l instr = .ok (l1, next, evs)) :
    l1.time_to_runloop = l.time_to_runloop ∧ countRefresh evs = 0 ∧ countAudio evs = 0 := by
  simp only [execInstr] at h
  by_cases c1 : instr = 0x00e0
  · rw [if_pos c1] at h
    injection h with h'
    injection h' with ha hb
    injection hb with hc hd
    subst ha
    subst hc
    subst hd
    exact ⟨rfl, rfl, rfl⟩
  · rw [if_neg c1] at h
    by_cases c2 : instr = 0x00ee
    · rw [if_pos c2] at h
      by_cases g : l.cpu.sp = 0
      · rw [if_pos g] at h
        exact Except.noConfusion h
      · rw [if_neg g] at h
        split at h
        · exact Except.noConfusion h
        · rename_i ret heq
          injection h with h'
          injection h' with ha hb
          injection hb with hc hd
          subst ha
          subst hc
          subst hd
          exact ⟨rfl, rfl, rfl⟩
    · rw [if_neg c2] at h
      by_cases c3 : 0x1000 ≤ instr ∧ instr ≤ 0x1fff
      · rw [if_pos c3] at h
        injection h with h'
        injection h' with ha hb
        injection hb with hc hd
        subst ha
        subst hc
        subst hd
        exact ⟨rfl, rfl, rfl⟩
      · rw [if_neg c3] at h
        by_cases c4 : 0x2000 ≤ instr ∧ instr ≤ 0x2fff
        · rw [if_pos c4] at h
          by_cases g : l.cpu.sp = 16
          · rw [if_pos g] at h
            exact Except.noConfusion h
          · rw [if_neg g] at h
            split at h
            · exact Except.noConfusion h
            · rename_i la heq
              injection h with h'
              injection h' with ha hb
              injection hb with hc hd
              subst ha
              subst hc
              subst hd
              have hw := wStack_ttr l l.cpu.sp l.cpu.pc la heq
              exact ⟨hw, rfl, rfl⟩
        · rw [if_neg c4] at h
          by_cases c5 : 0x3000 ≤ instr ∧ instr ≤ 0x3fff
          · rw [if_pos c5] at h
            injection h with h'
            injection h' with ha hb
            injection hb with hc hd
            subst ha
            subst hc
            subst hd
            refine ⟨?_, rfl, rfl⟩
            split <;> rfl
          · rw [if_neg c5] at h
            by_cases c6 : 0x4000 ≤ instr ∧ instr ≤ 0x4fff
            · rw [if_pos c6] at h
              injection h with h'
              injection h' with ha hb
              injection hb with hc hd
              subst ha
              subst hc
              subst hd
              refine ⟨?_, rfl, rfl⟩
              split <;> rfl
            · rw [if_neg c6] at h
              by_cases c7 : 0x5000 ≤ instr ∧ instr ≤ 0x5fff
              · rw [if_pos c7] at h
                injection h with h'
                injection h' with ha hb
                injection hb with hc hd
                subst ha
                subst hc
                subst hd
                refine ⟨?_, rfl, rfl⟩
                split <;> rfl
              · rw [if_neg c7] at h
                by_cases c8 : 0x6000 ≤ instr ∧ instr ≤ 0x6fff
                · rw [if_pos c8] at h
                  injection h with h'
                  injection h' with ha hb
                  injection hb with hc hd
                  subst ha
                  subst hc
                  subst hd
                  exact ⟨rfl, rfl, rfl⟩
                · rw [if_neg c8] at h
                  by_cases c9 : 0x7000 ≤ instr ∧ instr ≤ 0x7fff
                  · rw [if_pos c9] at h
                    injection h with h'
                    injection h' with ha hb
                    injection hb with hc hd
                    subst ha
                    subst hc
                    subst hd
                    exact ⟨rfl, rfl, rfl⟩
                  · rw [if_neg c9] at h
                    by_cases c10 : 0x8000 ≤ instr ∧ instr ≤ 0x8fff
                    · rw [if_pos c10] at h
                      injection h with h'
                      injection h' with ha hb
                      injection hb with hc hd
                      subst ha
                      subst hc
                      subst hd
                      exact ⟨exec8_ttr _ _ _ _, rfl, rfl⟩
                    · rw [if_neg c10] at h
                      by_cases c11 : 0x9000 ≤ instr ∧ instr ≤ 0x9fff
                      · rw [if_pos c11] at h
                        injection h with h'
                        injection h' with ha hb
                        injection hb with hc hd
                        subst ha
                        subst hc
                        subst hd
                        refine ⟨?_, rfl, rfl⟩
                        split <;> rfl
                      · rw [if_neg c11] at h
                        by_cases c12 : 0xa000 ≤ instr ∧ instr ≤ 0xafff
                        · rw [if_pos c12] at h
                          injection h with h'
                          injection h' with ha hb
                          injection hb with hc hd
                          subst ha
                          subst hc
                          subst hd
                          exact ⟨rfl, rfl, rfl⟩
                        · rw [if_neg c12] at h
                          by_cases c13 : 0xb000 ≤ instr ∧ instr ≤ 0xbfff
                          · rw [if_pos c13] at h
                            injection h with h'
                            injection h' with ha hb
                            injection hb with hc hd
                            subst ha
                            subst hc
                            subst hd
                            exact ⟨rfl, rfl, rfl⟩
                          · rw [if_neg c13] at h
                            by_cases c14 : 0xc000 ≤ instr ∧ instr ≤ 0xcfff
                            · rw [if_pos c14] at h
                              injection h with h'
                              injection h' with ha hb
                              injection hb with hc hd
                              subst ha
                              subst hc
                              subst hd
                              exact ⟨rfl, rfl, rfl⟩
                            · rw [if_neg c14] at h
                              by_cases c15 : 0xd000 ≤ instr ∧ instr ≤ 0xdfff
                              · rw [if_pos c15] at h
                                split at h
                                · exact Except.noConfusion h
                                · rename_i bs heq
                                  injection h with h'
                                  injection h' with ha hb
                                  injection hb with hc hd
                                  subst ha
                                  subst hc
                                  subst hd
                                  exact ⟨rfl, rfl, rfl⟩
                              · rw [if_neg c15] at h
                                by_cases c16 : 0xe000 ≤ instr ∧ instr ≤ 0xff65
                                · rw [if_pos c16] at h
                                  split at h
                                  · exact Except.noConfusion h
                                  · rename_i la evsa heq
                                    injection h with h'
                                    injection h' with ha hb
                                    injection hb with hc hd
                                    subst ha
                                    subst hc
                                    subst hd
                                    obtain ⟨hf1, hf2⟩ := execEF_frame _ _ _ _ _ _ _ _ heq
                                    subst hf2
                                    exact ⟨hf1, rfl, rfl⟩
                                · rw [if_neg c16] at h
                                  injection h with h'
                                  injection h' with ha hb
                                  injection hb with hc hd
                                  subst ha
                                  subst hc
                                  subst hd
                                  exact ⟨rfl, rfl, rfl⟩

/-- The key-handling loop never touches the timer counter. -/
theorem handleKeys_ttr (keys : Nat → Bool) (l l1 : Loop)
    (h : handleKeys keys l = .ok l1) :
    l1.time_to_runloop = l.time_to_runloop := by
  simp only [handleKeys] at h
  by_cases hw : l.waiting_for_keypress = true
  · rw [if_pos hw] at h
    split at h
    · injection h with h'
      subst h'
      rfl
    · rename_i j heq
      by_cases hs : l.store_keypress_in < 16
      · rw [if_pos hs] at h
        injection h with h'
        subst h'
        rfl
      · rw [if_neg hs] at h
        exact Except.noConfusion h
  · rw [if_neg hw] at h
    injection h with h'
    subst h'
    rfl

/-- The execute phase of an iteration leaves the timer counter untouched
and emits no refresh or audio command. -/
theorem execPhase_frame (env : Env) (l : Loop) (instr : Nat) (l2 : Loop) (evs : List Ev)
    (h : execPhase env l instr = .ok (l2, evs)) :
    l2.time_to_runloop = l.time_to_runloop ∧ countRefresh evs = 0 ∧ countAudio evs = 0 := by
  simp only [execPhase] at h
  by_cases he : l.executing = true
  · rw [if_pos he] at h
    simp only [runInstr] at h
    split at h
    · exact Except.noConfusion h
    · rename_i la next evsa heq
      injection h with h'
      injection h' with ha hb
      subst ha
      subst hb
      obtain ⟨h1, h2, h3⟩ := execInstr_frame _ _ _ _ _ _ _ _ heq
      refine ⟨?_, h2, h3⟩
      split
      · exact h1
      · exact h1
  · rw [if_neg he] at h
    injection h with h'
    injection h' with ha hb
    subst ha
    subst hb
    exact ⟨rfl, rfl, rfl⟩

/-- `countRefresh` distributes over concatenation. -/
theorem countRefresh_append (a b : List Ev) :
    countRefresh (a ++ b) = countRefresh a + countRefresh b := by
  simp [countRefresh, List.countP_append]

/-- `countAudio` distributes over concatenation. -/
theorem countAudio_append (a b : List Ev) :
    countAudio (a ++ b) = countAudio a + countAudio b := by
  simp [countAudio, List.countP_append]

/-- The timer/refresh block: exactly one `refresh` and exactly one audio
command when the counter has reached 0 (and the counter resets to 8),
nothing otherwise (and the counter decrements). -/
theorem timerPhase_spec (l : Loop) :
    countRefresh (timerPhase l).2 = (if l.time_to_runloop = 0 then 1 else 0) ∧
    countAudio (timerPhase l).2 = (if l.time_to_runloop = 0 then 1 else 0) ∧
    (timerPhase l).1.time_to_runloop =
      (if l.time_to_runloop = 0 then 8 else l.time_to_runloop - 1) := by
  by_cases ht : l.time_to_runloop = 0
  · by_cases hst : 0 < l.cpu.st
    · simp [timerPhase, ht, hst, countRefresh, countAudio]
    · simp [timerPhase, ht, hst, countRefresh, countAudio]
  · simp [timerPhase, ht, countRefresh, countAudio]

/-- One iteration of the loop body performs the timer/refresh tick
exactly when `time_to_runloop` (which counts 8,7,…,0) has reached 0, and
resets the counter to 8 after a tick. -/
theorem stepBody_tick (env : Env) (l l3 : Loop) (evs : List Ev)
    (h : stepBody env l = .ok (l3, evs)) :
    countRefresh evs = (if l.time_to_runloop = 0 then 1 else 0) ∧
    countAudio evs = (if l.time_to_runloop = 0 then 1 else 0) ∧
    l3.time_to_runloop = (if l.time_to_runloop = 0 then 8 else l.time_to_runloop - 1) := by
  simp only [stepBody] at h
  split at h
  · exact Except.noConfusion h
  · rename_i l1 heq1
    split at h
    · exact Except.noConfusion h
    · rename_i instr heq2
      split at h
      · exact Except.noConfusion h
      · rename_i l2 evs1 heq3
        injection h with h'
        injection h' with ha hb
        subst ha
        subst hb
        have hks := handleKeys_ttr _ _ _ heq1
        obtain ⟨he1, he2, he3⟩ := execPhase_frame _ _ _ _ _ heq3
        obtain ⟨ht1, ht2, ht3⟩ := timerPhase_spec l2
        have httr : l2.time_to_runloop = l.time_to_runloop := by rw [he1, hks]
        rw [httr] at ht1 ht2 ht3
        refine ⟨?_, ?_, ht3⟩
        · rw [countRefresh_append, he2, ht1, Nat.zero_add]
        · rw [countAudio_append, he3, ht2, Nat.zero_add]

set_option maxRecDepth 8192 in
set_option maxHeartbeats 2000000 in
/-- C5 (divergence exhibit): the timer/refresh tick of `run_loop` fires
exactly when the counter `time_to_runloop` reaches 0, and the counter
runs through the nine values 8,7,…,0 — so the tick is performed once
every NINE iterations, not once every 8 as claimed (and as the source's
own comment `// run once every 8 iterations, ie. 60Hz` says).
Concretely, from a fresh loop state the first 8 iterations contain no
tick, the first tick lands on iteration 9, and 18 iterations contain
exactly 2 ticks.  The per-iteration part also shows the tick block is the
only source of `refresh`/audio commands (instructions emit none). -/
theorem timer_tick_cadence :
    ((runEvs quietEnv 8 zeroLoop).map countRefresh = some 0 ∧
     (runEvs quietEnv 9 zeroLoop).map countRefresh = some 1 ∧
     (runEvs quietEnv 18 zeroLoop).map countRefresh = some 2) ∧
    (∀ env l l3 evs, stepBody env l = .ok (l3, evs) →
      countRefresh evs = (if l.time_to_runloop = 0 then 1 else 0) ∧
      countAudio evs = (if l.time_to_runloop = 0 then 1 else 0) ∧
      l3.time_to_runloop = (if l.time_to_runloop = 0 then 8 else l.time_to_runloop - 1)) := by
  constructor
  · refine ⟨?_, ?_, ?_⟩ <;> decide
  · exact fun env l l3 evs h => stepBody_tick env l l3 evs h

set_option maxRecDepth 8192 in
/-- Witness for C5's per-iteration clause: one quiet iteration from the
fresh state (counter 8) ticks nothing and decrements the counter to 7. -/
theorem timer_tick_cadence_witness :
    countRefresh [] = (if zeroLoop.time_to_runloop = 0 then 1 else 0) ∧
    countAudio [] = (if zeroLoop.time_to_runloop = 0 then 1 else 0) ∧
    zeroLoopStep.time_to_runloop =
      (if zeroLoop.time_to_runloop = 0 then 8 else zeroLoop.time_to_runloop - 1) :=
  timer_tick_cadence.2 quietEnv zeroLoop zeroLoopStep [] (by rfl)

/-! ## C6: program-counter bounds check -/

set_option maxRecDepth 8192 in
set_option maxHeartbeats 2000000 in
/-- C6 (divergence exhibit): the ROM `1F FE` jumps to `0xFFE`; the
unrecognized word `0000` there advances the program counter to 4096,
which is outside the 4096-byte memory — yet the loop guard
(`self.pc <= RAM_SIZE`, i.e. `pc ≤ 4096`) lets it through, the body runs a
third iteration, and the fetch indexes `ram[4096]`/`ram[4097]` out of
bounds (a Rust panic) instead of halting. -/
theorem pc_guard_out_of_bounds_fetch :
    (load_rom newCPU [0x1f, 0xfe]).isSome = true ∧
    runPC quietEnv 2 (initLoop oobCPU) = some 4096 ∧
    runErr quietEnv 2 (initLoop oobCPU) = none ∧
    runErr quietEnv 3 (initLoop oobCPU) = some ExecError.crash := by
  refine ⟨?_, ?_, ?_, ?_⟩ <;> decide

/-! ## C10: Fx55 / Fx65 frame effects -/

/-- Instruction words in `0xe000..=0xff65` reach the nibble-dispatch arm. -/
theorem execInstr_EF (k : Nat → Bool) (r dr : Nat) (l : Loop) (instr : Nat)
    (h1 : 0xe000 ≤ instr) (h2 : instr ≤ 0xff65) :
    execInstr k r dr l instr =
      (match execEF k l (instr / 4096 % 16) (instr / 256 % 16) (instr / 16 % 16) (instr % 16) with
       | .error e => .error e
       | .ok (l1, evs) => .ok (l1, true, evs)) := by
  simp only [execInstr]
  iterate 15 rw [if_neg (by omega)]
  rw [if_pos (⟨h1, h2⟩ : 0xe000 ≤ instr ∧ instr ≤ 0xff65),
      hexDigits_1_3, hexDigits_1_2, hexDigits_1_1, hexDigits_1_0]

/-- Evaluation of the `Fx55` nibble pattern inside the dispatch arm. -/
theorem execEF_55 (keys : Nat → Bool) (l : Loop) (x : Nat) :
    execEF keys l 0xf x 5 5 =
      (match storeRegs l.cpu.i (List.range (x + 1)) l with
       | .error e => .error e
       | .ok l1 => .ok (l1, [])) := rfl

/-- Evaluation of the `Fx65` nibble pattern inside the dispatch arm. -/
theorem execEF_65 (keys : Nat → Bool) (l : Loop) (x : Nat) :
    execEF keys l 0xf x 6 5 =
      (match loadRegs l.cpu.i (List.range (x + 1)) l with
       | .error e => .error e
       | .ok l1 => .ok (l1, [])) := rfl

/-- Under the bounds hypothesis, the `Fx55` store loop completes. -/
theorem storeRegs_ok (base : Nat) (js : List Nat) (l : Loop)
    (h : ∀ j ∈ js, base + j < 4096) :
    ∃ l1, storeRegs base js l = .ok l1 := by
  induction js generalizing l with
  | nil => exact ⟨l, rfl⟩
  | cons j js ih =>
    have hj : base + j < 4096 := h j (List.mem_cons_self _ _)
    simp only [storeRegs, wRam, if_pos hj]
    exact ih _ (fun j' hj' => h j' (List.mem_cons_of_mem _ hj'))

/-- Under the bounds hypothesis, the `Fx65` load loop completes. -/
theorem loadRegs_ok (base : Nat) (js : List Nat) (l : Loop)
    (h : ∀ j ∈ js, base + j < 4096) :
    ∃ l1, loadRegs base js l = .ok l1 := by
  induction js generalizing l with
  | nil => exact ⟨l, rfl⟩
  | cons j js ih =>
    have hj : base + j < 4096 := h j (List.mem_cons_self _ _)
    simp only [loadRegs, rRam, if_pos hj]
    exact ih _ (fun j' hj' => h j' (List.mem_cons_of_mem _ hj'))

/-- C10: when the transfer stays in memory bounds, `Fx55` (store V0..Vx
at `I..I+x`) leaves `I` and all registers unchanged, and `Fx65` (load
V0..Vx from `I..I+x`) leaves `I` and all memory unchanged — in
particular `I` is not incremented by either transfer. -/
theorem store_load_leave_index (k : Nat → Bool) (r dr : Nat) (l : Loop) (x : Nat)
    (hx : x < 16) (hI : l.cpu.i + x < 4096) :
    (∃ l1, execInstr k r dr l (0xf000 + 256 * x + 0x55) = .ok (l1, true, []) ∧
      l1.cpu.i = l.cpu.i ∧ l1.cpu.v = l.cpu.v) ∧
    (∃ l2, execInstr k r dr l (0xf000 + 256 * x + 0x65) = .ok (l2, true, []) ∧
      l2.cpu.i = l.cpu.i ∧ l2.cpu.ram = l.cpu.ram) := by
  have hb : ∀ j ∈ List.range (x + 1), l.cpu.i + j < 4096 := by
    intro j hj
    have := List.mem_range.mp hj
    omega
  constructor
  · obtain ⟨l1, hl1⟩ := storeRegs_ok l.cpu.i (List.range (x + 1)) l hb
    refine ⟨l1, ?_, (storeRegs_frame _ _ _ _ hl1).2.1, (storeRegs_frame _ _ _ _ hl1).1⟩
    rw [execInstr_EF k r dr l _ (by omega) (by omega),
        show (0xf000 + 256 * x + 0x55) / 4096 % 16 = 0xf from by omega,
        show (0xf000 + 256 * x + 0x55) / 256 % 16 = x from by omega,
        show (0xf000 + 256 * x + 0x55) / 16 % 16 = 5 from by omega,
        show (0xf000 + 256 * x + 0x55) % 16 = 5 from by omega,
        execEF_55, hl1]
  · obtain ⟨l2, hl2⟩ := loadRegs_ok l.cpu.i (List.range (x + 1)) l hb
    refine ⟨l2, ?_, (loadRegs_frame _ _ _ _ hl2).2.1, (loadRegs_frame _ _ _ _ hl2).1⟩
    rw [execInstr_EF k r dr l _ (by omega) (by omega),
        show (0xf000 + 256 * x + 0x65) / 4096 % 16 = 0xf from by omega,
        show (0xf000 + 256 * x + 0x65) / 256 % 16 = x from by omega,
        show (0xf000 + 256 * x + 0x65) / 16 % 16 = 6 from by omega,
        show (0xf000 + 256 * x + 0x65) % 16 = 5 from by omega,
        execEF_65, hl2]

/-- Witness for C10: `x = 2`, `I = 0x300` on a machine with fresh RAM. -/
theorem store_load_leave_index_witness :
    (∃ l1, execInstr (fun _ => false) 0 0
        (initLoop { newCPU with i := 0x300 }) (0xf000 + 256 * 2 + 0x55) = .ok (l1, true, []) ∧
      l1.cpu.i = (initLoop { newCPU with i := 0x300 }).cpu.i ∧
      l1.cpu.v = (initLoop { newCPU with i := 0x300 }).cpu.v) ∧
    (∃ l2, execInstr (fun _ => false) 0 0
        (initLoop { newCPU with i := 0x300 }) (0xf000 + 256 * 2 + 0x65) = .ok (l2, true, []) ∧
      l2.cpu.i = (initLoop { newCPU with i := 0x300 }).cpu.i ∧
      l2.cpu.ram = (initLoop { newCPU with i := 0x300 }).cpu.ram) :=
  store_load_leave_index (fun _ => false) 0 0 (initLoop { newCPU with i := 0x300 }) 2
    (by norm_num) (by show (768 : Nat) + 2 < 4096; norm_num)

/-! ## C8: WaitingForKey behaviour -/

/-- The ascending key scan finds `j` when `j` is in the scanned window,
is pressed, and no smaller scanned index is pressed. -/
theorem scanKeys_found (keys : Nat → Bool) :
    ∀ (n j0 j : Nat), j0 ≤ j → j < j0 + n → keys j = true →
      (∀ i, j0 ≤ i → i < j → keys i = false) →
      scanKeys keys j0 n = some j := by
  intro n
  induction n with
  | zero => intro j0 j h1 h2 _ _; omega
  | succ n ih =>
    intro j0 j h1 h2 hk hmin
    unfold scanKeys
    by_cases hk0 : keys j0 = true
    · have hej : j = j0 := by
        by_contra hne
        have := hmin j0 (Nat.le_refl _) (by omega)
        rw [this] at hk0
        exact Bool.noConfusion hk0
      rw [if_pos hk0, hej]
    · rw [if_neg hk0]
      have hne : j ≠ j0 := fun he => hk0 (he ▸ hk)
      exact ih (j0 + 1) j (by omega) (by omega) hk
        (fun i hi1 hi2 => hmin i (by omega) hi2)

/-- The ascending key scan finds nothing when no scanned key is pressed. -/
theorem scanKeys_none (keys : Nat → Bool) :
    ∀ (n j0 : Nat), (∀ i, j0 ≤ i → i < j0 + n → keys i = false) →
      scanKeys keys j0 n = none := by
  intro n
  induction n with
  | zero => intro j0 _; rfl
  | succ n ih =>
    intro j0 h
    unfold scanKeys
    rw [if_neg (by rw [h j0 (Nat.le_refl _) (by omega)]; exact Bool.noConfusion)]
    exact ih (j0 + 1) (fun i hi1 hi2 => h i (by omega) (by omega))

/-- C8: while suspended in `WaitingForKey(reg)` (with `reg` a register
index), (1) if some key is pressed in the frame snapshot, the lowest
pressed index `j` wins: the key loop resumes execution
(`executing = true`, `waiting_for_keypress = false`) and writes `j` into
register `reg`; (2) on a frame with no key pressed (and the PC fetch in
bounds), the iteration executes no instruction: registers, PC, I, memory
and the stack are unchanged, the machine stays suspended, and only the
timers tick on schedule. -/
theorem waiting_for_key_behaviour (env : Env) (l : Loop)
    (hw : l.waiting_for_keypress = true) (hr : l.store_keypress_in < 16) :
    (∀ j, j < 16 → env.keys j = true → (∀ i, i < j → env.keys i = false) →
      handleKeys env.keys l =
        .ok { l with cpu := { l.cpu with v := (upd l.cpu.v l.store_keypress_in j) }, executing := true, waiting_for_keypress := false }) ∧
    ((∀ j, j < 16 → env.keys j = false) → l.executing = false → l.cpu.pc + 1 < 4096 →
      ∃ l3 evs, stepBody env l = .ok (l3, evs) ∧
        l3.cpu.v = l.cpu.v ∧ l3.cpu.pc = l.cpu.pc ∧ l3.cpu.i = l.cpu.i ∧
        l3.cpu.ram = l.cpu.ram ∧ l3.cpu.stack = l.cpu.stack ∧ l3.cpu.sp = l.cpu.sp ∧
        l3.executing = false ∧ l3.waiting_for_keypress = true ∧
        l3.cpu.dt = (if l.time_to_runloop = 0 ∧ 0 < l.cpu.dt then l.cpu.dt - 1 else l.cpu.dt) ∧
        l3.cpu.st = (if l.time_to_runloop = 0 ∧ 0 < l.cpu.st then l.cpu.st - 1 else l.cpu.st)) := by
  constructor
  · intro j hj hk hmin
    have hf : firstKey env.keys = some j :=
      scanKeys_found env.keys 16 0 j (Nat.zero_le _) (by omega) hk
        (fun i _ hi2 => hmin i hi2)
    unfold handleKeys
    rw [if_pos hw, hf]
    exact if_pos hr
  · intro hnk he hpc
    have hf : firstKey env.keys = none :=
      scanKeys_none env.keys 16 0 (fun i _ hi2 => hnk i (by omega))
    have h1 : handleKeys env.keys l = .ok l := by
      unfold handleKeys
      rw [if_pos hw, hf]
    have h2 : fetch l = .ok (l.cpu.ram l.cpu.pc * 256 + l.cpu.ram (l.cpu.pc + 1)) := by
      simp only [fetch, rRam, if_pos (show l.cpu.pc < 4096 by omega), if_pos hpc]
    have h3 : execPhase env l (l.cpu.ram l.cpu.pc * 256 + l.cpu.ram (l.cpu.pc + 1)) = .ok (l, []) := by
      simp only [execPhase, he]
      rfl
    refine ⟨(timerPhase l).1, [] ++ (timerPhase l).2, ?_, ?_, ?_, ?_, ?_, ?_, ?_, ?_, ?_, ?_, ?_⟩
    · simp only [stepBody, h1, h2, h3]
    · unfold timerPhase; split <;> rfl
    · unfold timerPhase; split <;> rfl
    · unfold timerPhase; split <;> rfl
    · unfold timerPhase; split <;> rfl
    · unfold timerPhase; split <;> rfl
    · unfold timerPhase; split <;> rfl
    · unfold timerPhase; split <;> exact he
    · unfold timerPhase; split <;> exact hw
    · unfold timerPhase
      by_cases ht : l.time_to_runloop = 0 <;> by_cases hd : 0 < l.cpu.dt <;>
        simp [ht, hd]
    · unfold timerPhase
      by_cases ht : l.time_to_runloop = 0 <;> by_cases hst : 0 < l.cpu.st <;>
        simp [ht, hst]

/-- Witness for C8: suspended machine with target register 7, key 3 the
only key down: execution resumes with `V7 = 3`; and a quiet frame from
the same machine leaves everything but the timers alone. -/
theorem waiting_for_key_behaviour_witness :
    (∀ j, j < 16 → keyEnv.keys j = true → (∀ i, i < j → keyEnv.keys i = false) →
      handleKeys keyEnv.keys waitLoop =
        .ok { waitLoop with cpu := { waitLoop.cpu with v := (upd waitLoop.cpu.v waitLoop.store_keypress_in j) }, executing := true, waiting_for_keypress := false }) ∧
    ((∀ j, j < 16 → keyEnv.keys j = false) → waitLoop.executing = false → waitLoop.cpu.pc + 1 < 4096 →
      ∃ l3 evs, stepBody keyEnv waitLoop = .ok (l3, evs) ∧
        l3.cpu.v = waitLoop.cpu.v ∧ l3.cpu.pc = waitLoop.cpu.pc ∧ l3.cpu.i = waitLoop.cpu.i ∧
        l3.cpu.ram = waitLoop.cpu.ram ∧ l3.cpu.stack = waitLoop.cpu.stack ∧ l3.cpu.sp = waitLoop.cpu.sp ∧
        l3.executing = false ∧ l3.waiting_for_keypress = true ∧
        l3.cpu.dt = (if waitLoop.time_to_runloop = 0 ∧ 0 < waitLoop.cpu.dt then waitLoop.cpu.dt - 1 else waitLoop.cpu.dt) ∧
        l3.cpu.st = (if waitLoop.time_to_runloop = 0 ∧ 0 < waitLoop.cpu.st then waitLoop.cpu.st - 1 else waitLoop.cpu.st)) :=
  waiting_for_key_behaviour keyEnv waitLoop (by rfl) (by decide)

/-! ## C9: unrecognized instruction words -/

/-- C9 (amended): every instruction word the dispatcher routes to an
unrecognized-warning branch is executed as a pure no-op apart from the
automatic PC advance: the resulting state is exactly the input state
with `pc + 2` (registers, memory, I, timers, stack, stack pointer and
execution mode untouched), and no collaborator call is made. -/
theorem unrecognized_skip (k : Nat → Bool) (r dr : Nat) (l : Loop) (instr : Nat)
    (h : Unrecognized instr) :
    runInstr k r dr l instr =
      .ok ({ l with cpu := { l.cpu with pc := l.cpu.pc + 2 } }, []) := by
  rcases h with ⟨h1, h2, h3⟩ | ⟨h1, h2, h3, h4, h5, h6, h7, h8, h9, h10, h11⟩ |
    ⟨h1, h2, hn1, hn2, hn3, hn4, hn5, hn6, hn7, hn8, hn9, hn10, hn11⟩ | ⟨h1, h2⟩
  · have hexec : execInstr k r dr l instr = .ok (l, true, []) := by
      simp only [execInstr]
      rw [if_neg h2, if_neg h3]
      iterate 14 rw [if_neg (by omega)]
    unfold runInstr
    rw [hexec]
    rfl
  · have h8x : exec8 l (instr % 16) (instr / 256 % 16) (instr / 16 % 16) = l := by
      unfold exec8
      rw [if_neg h3, if_neg h4, if_neg h5, if_neg h6, if_neg h7, if_neg h8, if_neg h9,
          if_neg h10, if_neg h11]
    have hexec : execInstr k r dr l instr = .ok (l, true, []) := by
      simp only [execInstr]
      iterate 9 rw [if_neg (by omega)]
      rw [if_pos (⟨h1, h2⟩ : 0x8000 ≤ instr ∧ instr ≤ 0x8fff),
          hexDigits_1_0, hexDigits_1_1, hexDigits_1_2, h8x]
    unfold runInstr
    rw [hexec]
    rfl
  · have hEF : execEF k l (instr / 4096 % 16) (instr / 256 % 16) (instr / 16 % 16) (instr % 16) =
        .ok (l, []) := by
      simp only [execEF]
      rw [if_neg hn1, if_neg hn2, if_neg hn3, if_neg hn4, if_neg hn5, if_neg hn6,
          if_neg hn7, if_neg hn8, if_neg hn9, if_neg hn10, if_neg hn11]
    unfold runInstr
    rw [execInstr_EF k r dr l instr h1 h2, hEF]
    rfl
  · have hexec : execInstr k r dr l instr = .ok (l, true, []) := by
      simp only [execInstr]
      iterate 16 rw [if_neg (by omega)]
    unfold runInstr
    rw [hexec]
    rfl

/-- Witness for C9: the word `0x0123` (a SYS-style word the dispatcher
does not know) is skipped with PC advancing from 0x200 to 0x202. -/
theorem unrecognized_skip_witness :
    runInstr (fun _ => false) 0 0 (initLoop newCPU) 0x0123 =
      .ok ({ initLoop newCPU with cpu := { (initLoop newCPU).cpu with pc := (initLoop newCPU).cpu.pc + 2 } }, []) :=
  unrecognized_skip (fun _ => false) 0 0 (initLoop newCPU) 0x0123 (by unfold Unrecognized; decide)

/-- Counterexample for C9 as stated: the word `0x5001` matches none of
the 35 documented patterns (`5xy0` requires a zero last nibble), yet the
dispatcher executes it as `5xy0` (skip if `V0 = V0`), so the PC advances
by 4, not 2, and the claim's no-op description fails. -/
theorem unrecognized_skip_cex :
    instrPC (runInstr (fun _ => false) 0 0 (initLoop newCPU) 0x5001) = some 0x204 ∧
    instrPC (runInstr (fun _ => false) 0 0 (initLoop newCPU) 0x5001) ≠ some 0x202 := by
  constructor <;> decide

end Chip8
